import Mathlib

/-!
SimpleIDE (`public/script.js`)

A shallow embedding of the browser-side controller `SimpleIDE`: the three
event handlers `runCode`, `clearAll` and `handleLanguageChange`, over an
explicit record of the DOM elements and the editor widget they touch.

Conventions of the embedding:

* JavaScript strings are Lean strings.
* A value produced by `response.json()` is a `JVal`.  A JSON number carries
  the text `Number::toString` gives for it, which is all the handlers ever
  observe of a number (its rendering, and whether it is zero).
* `undefined` is `none` in `Option JVal`.
* A handler call yields a `Completion`: the state it leaves, the requests it
  issued, and the error that escaped to its caller, if any.
* `runCode` suspends once, at the `await` of the transport call.  The part
  before the suspension is `runCodeBegin`, the part after it is
  `runCodeResume`, `runCode` is one uninterrupted run of both, and
  `overlappingRuns` interleaves two calls.
* `readRecord` is a reader of JSON texts, independent of the handlers, against
  which the body of the request is checked.
-/

namespace SimpleIDE

/-! ## JavaScript values -/

/-- An error object: the value bound by `catch (error)`.  Every error the
transport or the engine raises is an object with a string `message`. -/
structure JsError where
  name : String
  message : String
deriving Repr, DecidableEq

/-- A value obtained from parsing a JSON text. -/
inductive JVal where
  | null : JVal
  | bool (b : Bool) : JVal
  | num (shown : String) : JVal
  | str (s : String) : JVal
  | arr (items : List JVal) : JVal
  | obj (fields : List (String × JVal)) : JVal
deriving Repr

/-- Engine-dependent behaviour that the script text does not fix. -/
structure Host where
  /-- The message of the TypeError raised by reading the named property of `null` -/
  nullReadMessage : String → String
  /-- The message of the TypeError raised when an object has no primitive value -/
  toPrimitiveMessage : String
  /-- The message of the ReferenceError raised by reading the named undefined global -/
  undefinedGlobalMessage : String → String
  /-- Whether the global `monaco` is already defined while `this.editor` is `null` -/
  monacoLoaded : Bool
  /-- The language mode the widget gives a model when `setModelLanguage` is
  handed the given language id -/
  languageMode : String → String
  /-- What the widget's `setValue` makes of the editor content when it is
  handed the member of `Object.prototype` with the given name, not a string -/
  setValueForeign : String → String → Except JsError String

/-- Own property of a parsed JSON object; the last duplicate key wins. -/
def ownProp : List (String × JVal) → String → Option JVal
  | [], _ => none
  | (k, v) :: rest, key =>
    match ownProp rest key with
    | some w => some w
    | none => if k = key then some v else none

/-- The read `result.key` for `key` one of `output`, `error`: a TypeError on
`null`, the own property on an object, `undefined` on anything else. -/
def getProp (h : Host) (result : JVal) (key : String) : Except JsError (Option JVal) :=
  match result with
  | .null => .error ⟨"TypeError", h.nullReadMessage key⟩
  | .obj fields => .ok (ownProp fields key)
  | _ => .ok none

/-- The truthiness test `if (v)`. -/
def toBoolean : Option JVal → Bool
  | none => false
  | some .null => false
  | some (.bool b) => b
  | some (.num shown) => shown != "0"
  | some (.str s) => s != ""
  | some (.arr _) => true
  | some (.obj _) => true

mutual
/-- The string conversion `ToString(v)`. -/
def toStr (h : Host) : JVal → Except JsError String
  | .null => .ok "null"
  | .bool true => .ok "true"
  | .bool false => .ok "false"
  | .num shown => .ok shown
  | .str s => .ok s
  | .arr items => joinItems h items
  | .obj fields =>
    match ownProp fields "toString" with
    | some _ => .error ⟨"TypeError", h.toPrimitiveMessage⟩
    | none => .ok "[object Object]"
termination_by structural v => v
/-- The array rendering `Array.prototype.join` with separator `,`; an element
that is `null` renders as the empty string. -/
def joinItems (h : Host) : List JVal → Except JsError String
  | [] => .ok ""
  | x :: rest =>
    match (match x with
      | .null => (.ok "" : Except JsError String)
      | v => toStr h v) with
    | .error e => .error e
    | .ok a =>
      match rest with
      | [] => .ok a
      | _ :: _ =>
        match joinItems h rest with
        | .error e => .error e
        | .ok b => .ok (a ++ "," ++ b)
termination_by structural items => items
end

/-- The conversion applied by the setter of `textContent`: `undefined` and
`null` give the empty text, any other value its string conversion. -/
def toTextContent (h : Host) : Option JVal → Except JsError String
  | none => .ok ""
  | some .null => .ok ""
  | some v => toStr h v

/-! ## The page -/

/-- The method `classList.add(token)`. -/
def classAdd (token : String) (classes : List String) : List String :=
  if token ∈ classes then classes else classes ++ [token]

/-- The method `classList.remove(token)`. -/
def classRemove (token : String) (classes : List String) : List String :=
  classes.filter (fun c => c != token)

/-- The element `this.elements.output`. -/
structure OutputRegion where
  textContent : String
  classList : List String
deriving Repr, DecidableEq

/-- The editor widget `this.editor`: the text behind `getValue` and
`setValue`, and the language mode of its model. -/
structure Editor where
  value : String
  language : String
deriving Repr, DecidableEq

/-- The fields of a `SimpleIDE` that the handlers read or write:
`this.editor` (`none` is `null`), `this.elements.languageSelector.value`,
`this.elements.output` and `this.elements.inputData.value`. -/
structure IDE where
  editor : Option Editor
  languageSelector : String
  output : OutputRegion
  inputData : String
deriving Repr, DecidableEq

/-- What a property read on the object literal `this.placeholders` finds. -/
inductive Slot where
  | own (text : String) : Slot
  | inherited : Slot
  | absent : Slot
deriving Repr, DecidableEq

/-- The property names every object literal inherits from `Object.prototype`. -/
def objectPrototypeKeys : List String :=
  ["constructor", "__defineGetter__", "__defineSetter__", "hasOwnProperty",
   "__lookupGetter__", "__lookupSetter__", "isPrototypeOf", "propertyIsEnumerable",
   "toString", "valueOf", "__proto__", "toLocaleString"]

/-- The table `this.placeholders`, read as `this.placeholders[key]`. -/
def placeholders (key : String) : Slot :=
  if key = "python" then
    .own "name = input(\"Enter your name: \")\nprint(f\"Hello, \x7bname\x7d!\")"
  else if key = "javascript" then
    .own "// To read from stdin in Node.js:\n// process.stdin.on(\"data\", data => console.log(\x60You entered: $\x7bdata\x7d\x60));\nconsole.log(\"Hello, world!\");"
  else if key ∈ objectPrototypeKeys then .inherited
  else .absent

/-- A call of `fetch`. -/
structure Request where
  url : String
  method : String
  headers : List (String × String)
  body : String
deriving Repr, DecidableEq

/-- The outcome of one handler call. -/
structure Completion where
  state : IDE
  sent : List Request
  raised : Option JsError
deriving Repr, DecidableEq

/-- How the two awaited promises of `runCode` settle: `fetch` rejects,
`response.json()` rejects, or the body parses to a value. -/
inductive FetchOutcome where
  | rejected (error : JsError) : FetchOutcome
  | unparseable (error : JsError) : FetchOutcome
  | parsed (result : JVal) : FetchOutcome

/-! ## `JSON.stringify` on a record of strings -/

/-- Lower-case hexadecimal digit. -/
def hexDigit (n : Nat) : Char :=
  if n < 10 then Char.ofNat (48 + n) else Char.ofNat (87 + n)

/-- The escape of one character inside a JSON string literal. -/
def quoteJSONChar (c : Char) : List Char :=
  let backslash := Char.ofNat 92
  if c.toNat = 34 then [backslash, Char.ofNat 34]
  else if c.toNat = 92 then [backslash, backslash]
  else if c.toNat = 8 then [backslash, 'b']
  else if c.toNat = 12 then [backslash, 'f']
  else if c.toNat = 10 then [backslash, 'n']
  else if c.toNat = 13 then [backslash, 'r']
  else if c.toNat = 9 then [backslash, 't']
  else if c.toNat < 32 then
    [backslash, 'u', '0', '0', hexDigit (c.toNat / 16), hexDigit (c.toNat % 16)]
  else [c]

/-- A string as a JSON string literal. -/
def quoteJSONString (s : String) : String :=
  String.mk ([Char.ofNat 34] ++ (s.data.map quoteJSONChar).flatten ++ [Char.ofNat 34])

/-- The text `JSON.stringify` gives for an object literal whose values are
all strings, fields in the order written. -/
def stringifyRecord (fields : List (String × String)) : String :=
  "\x7b" ++ ",".intercalate (fields.map fun kv => quoteJSONString kv.1 ++ ":" ++ quoteJSONString kv.2) ++ "\x7d"

/-! ## A reader of JSON records of strings -/

/-- Where the reader stands in the text of a record. -/
inductive Phase where
  | start : Phase
  | first : Phase
  | name : Phase
  | colon : Phase
  | value : Phase
  | next : Phase
  | text (acc : List Char) : Phase
  | escape (acc : List Char) : Phase
  | hex (acc : List Char) (digits : List Nat) : Phase
  | done : Phase
deriving Repr, DecidableEq

/-- The reader: its phase, the members read so far, and the key of the
member whose value is being read. -/
structure Reader where
  phase : Phase
  fields : List (String × String)
  key : Option String
deriving Repr, DecidableEq

/-- The value of a hexadecimal digit. -/
def hexValue (c : Char) : Option Nat :=
  if 48 ≤ c.toNat ∧ c.toNat ≤ 57 then some (c.toNat - 48)
  else if 97 ≤ c.toNat ∧ c.toNat ≤ 102 then some (c.toNat - 87)
  else if 65 ≤ c.toNat ∧ c.toNat ≤ 70 then some (c.toNat - 55)
  else none

/-- The character a one-letter escape stands for. -/
def unescape (c : Char) : Option Char :=
  if c.toNat = 34 then some (Char.ofNat 34)
  else if c.toNat = 92 then some (Char.ofNat 92)
  else if c.toNat = 47 then some (Char.ofNat 47)
  else if c = 'b' then some (Char.ofNat 8)
  else if c = 'f' then some (Char.ofNat 12)
  else if c = 'n' then some (Char.ofNat 10)
  else if c = 'r' then some (Char.ofNat 13)
  else if c = 't' then some (Char.ofNat 9)
  else none

/-- The reader after the closing quote of a string literal: a key when no
key is pending, the value of the pending key otherwise. -/
def closeString (r : Reader) (acc : List Char) : Reader :=
  match r.key with
  | none => { r with phase := .colon, key := some (String.mk acc) }
  | some k => { phase := .next, fields := r.fields ++ [(k, String.mk acc)], key := none }

/-- One character of the JSON grammar for an object whose members are all
strings, written without white space. -/
def readChar (r : Reader) (c : Char) : Option Reader :=
  match r.phase with
  | .start => if c.toNat = 123 then some { r with phase := .first } else none
  | .first =>
    if c.toNat = 34 then some { r with phase := .text [] }
    else if c.toNat = 125 then some { r with phase := .done }
    else none
  | .name => if c.toNat = 34 then some { r with phase := .text [] } else none
  | .colon => if c.toNat = 58 then some { r with phase := .value } else none
  | .value => if c.toNat = 34 then some { r with phase := .text [] } else none
  | .next =>
    if c.toNat = 44 then some { r with phase := .name }
    else if c.toNat = 125 then some { r with phase := .done }
    else none
  | .text acc =>
    if c.toNat = 34 then some (closeString r acc)
    else if c.toNat = 92 then some { r with phase := .escape acc }
    else if c.toNat < 32 then none
    else some { r with phase := .text (acc ++ [c]) }
  | .escape acc =>
    match unescape c with
    | some ch => some { r with phase := .text (acc ++ [ch]) }
    | none => if c = 'u' then some { r with phase := .hex acc [] } else none
  | .hex acc digits =>
    match hexValue c with
    | none => none
    | some d =>
      match digits with
      | [d1, d2, d3] =>
        let n := ((d1 * 16 + d2) * 16 + d3) * 16 + d
        if n.isValidChar then some { r with phase := .text (acc ++ [Char.ofNat n]) } else none
      | _ => some { r with phase := .hex acc (digits ++ [d]) }
  | .done => none

/-- The members of a JSON text that is an object of strings, in the order
written; `none` when the text is not such an object. -/
def readRecord (body : String) : Option (List (String × String)) :=
  match body.data.foldlM readChar ⟨.start, [], none⟩ with
  | some r => if r.phase = .done then some r.fields else none
  | none => none


/-! ## The handlers -/

/-- The assignment `this.elements.output.textContent = text`. -/
def setText (s : IDE) (text : String) : IDE :=
  { s with output := { s.output with textContent := text } }

/-- The call `this.elements.output.classList.add('error')`. -/
def addError (s : IDE) : IDE :=
  { s with output := { s.output with classList := classAdd "error" s.output.classList } }

/-- The call `this.elements.output.classList.remove('error')`. -/
def removeError (s : IDE) : IDE :=
  { s with output := { s.output with classList := classRemove "error" s.output.classList } }

/-- The method `handleLanguageChange` (lines 48-52).  An editor that exists
was created by `monaco`, so the global is defined then; without an editor the
call on line 50 throws, on `monaco` when the library is not loaded yet and on
`this.editor.getModel` otherwise. -/
def handleLanguageChange (h : Host) (s : IDE) : Completion :=
  let selectedLanguage := s.languageSelector
  match s.editor with
  | none =>
    if h.monacoLoaded then ⟨s, [], some ⟨"TypeError", h.nullReadMessage "getModel"⟩⟩
    else ⟨s, [], some ⟨"ReferenceError", h.undefinedGlobalMessage "monaco"⟩⟩
  | some e =>
    let e1 : Editor := { e with language := h.languageMode selectedLanguage }
    match placeholders selectedLanguage with
    | .own text =>
      ⟨{ s with editor := some { e1 with value := if text = "" then "" else text } }, [], none⟩
    | .absent => ⟨{ s with editor := some { e1 with value := "" } }, [], none⟩
    | .inherited =>
      match h.setValueForeign selectedLanguage e1.value with
      | .ok v => ⟨{ s with editor := some { e1 with value := v } }, [], none⟩
      | .error err => ⟨{ s with editor := some e1 }, [], some err⟩

/-- The method `runCode` up to its first `await` (lines 55-71): the guard,
the three reads, the in-progress display and the call of `fetch`.  It gives
the state in which `fetch` is called together with the request, or `none`
when the guard returns. -/
def runCodeBegin (s : IDE) : Option (IDE × Request) :=
  match s.editor with
  | none => none
  | some e =>
    let code := e.value
    let language := s.languageSelector
    let inputData := s.inputData
    let s1 := setText s "Executing..."
    let s2 := removeError s1
    some (s2,
      { url := "/api/execute"
        method := "POST"
        headers := [("Content-Type", "application/json")]
        body := stringifyRecord [("language", language), ("code", code), ("input_data", inputData)] })

/-- The rest of the `try` block of `runCode` (lines 66-77), from the moment
the awaited promises settle: the state it leaves and the error it throws. -/
def tryBlock (h : Host) (s : IDE) : FetchOutcome → IDE × Option JsError
  | .rejected error => (s, some error)
  | .unparseable error => (s, some error)
  | .parsed result =>
    match getProp h result "output" with
    | .error e => (s, some e)
    | .ok output =>
      match toTextContent h output with
      | .error e => (s, some e)
      | .ok text =>
        let s1 := setText s text
        match getProp h result "error" with
        | .error e => (s1, some e)
        | .ok flag => if toBoolean flag then (addError s1, none) else (s1, none)

/-- The `catch` block of `runCode` (lines 78-81). -/
def catchBlock (s : IDE) (error : JsError) : IDE :=
  addError (setText s ("Error: " ++ error.message))

/-- The method `runCode` after its `await`s (lines 72-81), resumed in state `s`. -/
def runCodeResume (h : Host) (s : IDE) (outcome : FetchOutcome) : IDE :=
  match tryBlock h s outcome with
  | (s1, none) => s1
  | (s1, some error) => catchBlock s1 error

/-- The method `runCode` (lines 54-82), run without another handler in
between, against a transport that settles as `outcome`. -/
def runCode (h : Host) (s : IDE) (outcome : FetchOutcome) : Completion :=
  match runCodeBegin s with
  | none => ⟨s, [], none⟩
  | some (pending, request) => ⟨runCodeResume h pending outcome, [request], none⟩

/-- The method `clearAll` (lines 84-90). -/
def clearAll (h : Host) (s : IDE) : Completion :=
  let s1 := setText s ""
  let s2 := removeError s1
  match s2.editor with
  | none => ⟨s2, [], some ⟨"TypeError", h.nullReadMessage "setValue"⟩⟩
  | some e =>
    let s3 := { s2 with editor := some { e with value := "" } }
    ⟨{ s3 with inputData := "" }, [], none⟩

/-- Two calls of `runCode` that overlap: run A begins, run B begins while A
is in flight, B resumes with `outcomeB`, then A resumes with `outcomeA`.
The result is the state after both have resolved. -/
def overlappingRuns (h : Host) (s : IDE) (outcomeA outcomeB : FetchOutcome) : Option IDE :=
  match runCodeBegin s with
  | none => none
  | some (pendingA, _) =>
    match runCodeBegin pendingA with
    | none => none
    | some (pendingB, _) =>
      some (runCodeResume h (runCodeResume h pendingB outcomeB) outcomeA)

/-! ## Sample values -/

/-- A host with the messages of the V8 engine, and a widget that knows the
languages `plaintext`, `python` and `javascript`, gives every other id the
mode `plaintext`, and rejects a value that is not a string. -/
def demoHost : Host where
  nullReadMessage := fun key => "Cannot read properties of null (reading \x27" ++ key ++ "\x27)"
  toPrimitiveMessage := "Cannot convert object to primitive value"
  undefinedGlobalMessage := fun name => name ++ " is not defined"
  monacoLoaded := false
  languageMode := fun id =>
    if id ∈ ["plaintext", "python", "javascript"] then id else "plaintext"
  setValueForeign := fun _ _ => .error ⟨"Error", "Illegal argument"⟩

/-- A page whose last run ended in an error. -/
def demoIDE : IDE where
  editor := some ⟨"print(input())", "python"⟩
  languageSelector := "python"
  output := ⟨"Traceback", ["panel", "error"]⟩
  inputData := "5"

/-- The same page before the editor widget has been created. -/
def demoUnloaded : IDE := { demoIDE with editor := none }

/-! ## The reader inverts `stringifyRecord` -/

theorem readChar_control (n : Nat) (hn : n < 32) (acc : List Char)
    (f : List (String × String)) (k : Option String) :
    (quoteJSONChar (Char.ofNat n)).foldlM readChar ⟨.text acc, f, k⟩
      = some ⟨.text (acc ++ [Char.ofNat n]), f, k⟩ := by
  interval_cases n <;> rfl

theorem readChar_quoteJSONChar (c : Char) (acc : List Char)
    (f : List (String × String)) (k : Option String) :
    (quoteJSONChar c).foldlM readChar ⟨.text acc, f, k⟩
      = some ⟨.text (acc ++ [c]), f, k⟩ := by
  have hc : Char.ofNat c.toNat = c := Char.ofNat_toNat c
  by_cases h32 : c.toNat < 32
  · rw [← hc]
    exact readChar_control c.toNat h32 acc f k
  · by_cases h34 : c.toNat = 34
    · rw [← hc, h34]; rfl
    · by_cases h92 : c.toNat = 92
      · rw [← hc, h92]; rfl
      · have hq : quoteJSONChar c = [c] := by
          unfold quoteJSONChar
          simp only [h34, h92, h32, if_false]
          rw [if_neg (by omega), if_neg (by omega), if_neg (by omega), if_neg (by omega),
            if_neg (by omega)]
        rw [hq]
        simp [List.foldlM, readChar, h34, h92, h32]

theorem readChar_quoted (l acc : List Char) (f : List (String × String)) (k : Option String) :
    (l.map quoteJSONChar).flatten.foldlM readChar ⟨.text acc, f, k⟩
      = some ⟨.text (acc ++ l), f, k⟩ := by
  induction l generalizing acc with
  | nil => simp
  | cons c rest ih =>
    rw [List.map_cons, List.flatten_cons, List.foldlM_append, readChar_quoteJSONChar]
    simp [ih]


theorem quoteJSONString_data (s : String) :
    (quoteJSONString s).data
      = Char.ofNat 34 :: ((s.data.map quoteJSONChar).flatten ++ [Char.ofNat 34]) := by
  simp [quoteJSONString]

theorem readChar_string (p : Phase) (s : String) (f : List (String × String))
    (k : Option String)
    (hp : readChar ⟨p, f, k⟩ (Char.ofNat 34) = some ⟨.text [], f, k⟩) :
    (quoteJSONString s).data.foldlM readChar ⟨p, f, k⟩
      = some (closeString ⟨.text s.data, f, k⟩ s.data) := by
  rw [quoteJSONString_data, List.foldlM_cons, hp]
  simp only [Option.bind_eq_bind, Option.some_bind]
  rw [List.foldlM_append, readChar_quoted]
  simp [readChar]

theorem readChar_member (p : Phase) (kv : String × String) (f : List (String × String))
    (hp : readChar ⟨p, f, none⟩ (Char.ofNat 34) = some ⟨.text [], f, none⟩) :
    (quoteJSONString kv.1 ++ ":" ++ quoteJSONString kv.2).data.foldlM readChar ⟨p, f, none⟩
      = some ⟨.next, f ++ [kv], none⟩ := by
  rw [String.data_append, String.data_append, List.append_assoc, List.foldlM_append,
    readChar_string p kv.1 f none hp]
  simp only [Option.bind_eq_bind, Option.some_bind, closeString]
  rw [List.foldlM_append]
  have hcolon : (":" : String).data.foldlM readChar ⟨.colon, f, some (String.mk kv.1.data)⟩
      = some ⟨.value, f, some kv.1⟩ := rfl
  rw [hcolon]
  simp only [Option.bind_eq_bind, Option.some_bind]
  rw [readChar_string .value kv.2 f (some kv.1) rfl]
  simp [closeString]

theorem intercalate_go_data (sep acc : String) (l : List String) :
    (String.intercalate.go acc sep l).data
      = acc.data ++ (l.map fun a => sep.data ++ a.data).flatten := by
  induction l generalizing acc with
  | nil => simp [String.intercalate.go]
  | cons a rest ih => simp [String.intercalate.go, ih, String.data_append]

theorem readChar_members (l f : List (String × String)) :
    ((l.map fun kv => quoteJSONString kv.1 ++ ":" ++ quoteJSONString kv.2).map
        fun a => (",": String).data ++ a.data).flatten.foldlM readChar ⟨.next, f, none⟩
      = some ⟨.next, f ++ l, none⟩ := by
  induction l generalizing f with
  | nil => simp
  | cons kv rest ih =>
    rw [List.map_cons, List.map_cons, List.flatten_cons, List.foldlM_append, List.foldlM_append]
    have hcomma : (",": String).data.foldlM readChar ⟨.next, f, none⟩
        = some ⟨.name, f, none⟩ := rfl
    rw [hcomma]
    simp only [Option.bind_eq_bind, Option.some_bind]
    rw [readChar_member .name kv f rfl]
    simp only [Option.some_bind]
    rw [ih (f ++ [kv])]
    simp

theorem readRecord_stringifyRecord (fields : List (String × String)) :
    readRecord (stringifyRecord fields) = some fields := by
  cases fields with
  | nil => rfl
  | cons kv rest =>
    unfold readRecord stringifyRecord
    rw [String.data_append, String.data_append]
    have hopen : ("\x7b" : String).data.foldlM readChar ⟨.start, [], none⟩
        = some ⟨.first, [], none⟩ := rfl
    have hclose : ∀ f : List (String × String),
        ("\x7d" : String).data.foldlM readChar ⟨.next, f, none⟩ = some ⟨.done, f, none⟩ :=
      fun _ => rfl
    rw [List.append_assoc, List.foldlM_append, hopen]
    simp only [Option.bind_eq_bind, Option.some_bind]
    rw [List.foldlM_append, List.map_cons, String.intercalate, intercalate_go_data,
      List.foldlM_append, readChar_member .first kv [] rfl]
    simp only [Option.bind_eq_bind, Option.some_bind]
    rw [readChar_members rest ([] ++ [kv])]
    simp only [Option.some_bind]
    rw [hclose]
    simp

/-! ## Properties of the class list and of the rendered texts -/

theorem mem_classAdd (token : String) (classes : List String) :
    token ∈ classAdd token classes := by
  unfold classAdd
  split
  · assumption
  · simp

theorem not_mem_classRemove (token : String) (classes : List String) :
    token ∉ classRemove token classes := by
  simp [classRemove]

theorem error_text_ne_executing (m : String) : "Error: " ++ m ≠ "Executing..." := by
  intro hc
  have hd := congrArg String.data hc
  rw [String.data_append] at hd
  have h1 : ("Error: " : String).data = ['E', 'r', 'r', 'o', 'r', ':', ' '] := rfl
  have h2 : ("Executing..." : String).data =
      ['E', 'x', 'e', 'c', 'u', 't', 'i', 'n', 'g', '.', '.', '.'] := rfl
  rw [h1, h2] at hd
  simp at hd

theorem runCode_of_editor (h : Host) (s : IDE) (e : Editor) (outcome : FetchOutcome)
    (hed : s.editor = some e) :
    runCode h s outcome =
      ⟨runCodeResume h (removeError (setText s "Executing...")) outcome,
       [{ url := "/api/execute"
          method := "POST"
          headers := [("Content-Type", "application/json")]
          body := stringifyRecord
            [("language", s.languageSelector), ("code", e.value), ("input_data", s.inputData)] }],
       none⟩ := by
  simp [runCode, runCodeBegin, hed]

theorem getProp_error_of_output (h : Host) (result : JVal) (output : Option JVal)
    (hout : getProp h result "output" = .ok output) :
    ∃ flag, getProp h result "error" = .ok flag := by
  cases result <;> simp [getProp] at hout ⊢

theorem catchBlock_text (s : IDE) (error : JsError) :
    (catchBlock s error).output.textContent = "Error: " ++ error.message ∧
    "error" ∈ (catchBlock s error).output.classList := by
  simp [catchBlock, addError, setText, mem_classAdd]

theorem runCodeResume_cases (h : Host) (p : IDE) (outcome : FetchOutcome) :
    (∃ error, (tryBlock h p outcome).2 = some error ∧
      (runCodeResume h p outcome).output.textContent = "Error: " ++ error.message ∧
      "error" ∈ (runCodeResume h p outcome).output.classList) ∨
    (∃ result output text, outcome = .parsed result ∧
      getProp h result "output" = .ok output ∧ toTextContent h output = .ok text ∧
      (tryBlock h p outcome).2 = none ∧
      (runCodeResume h p outcome).output.textContent = text) := by
  cases outcome with
  | rejected error =>
    exact Or.inl ⟨error, rfl, catchBlock_text p error⟩
  | unparseable error =>
    exact Or.inl ⟨error, rfl, catchBlock_text p error⟩
  | parsed result =>
    cases hout : getProp h result "output" with
    | error err =>
      refine Or.inl ⟨err, ?_, ?_⟩
      · simp [tryBlock, hout]
      · simpa [runCodeResume, tryBlock, hout] using catchBlock_text p err
    | ok output =>
      obtain ⟨flag, hflag⟩ := getProp_error_of_output h result output hout
      cases htext : toTextContent h output with
      | error err =>
        refine Or.inl ⟨err, ?_, ?_⟩
        · simp [tryBlock, hout, htext]
        · simpa [runCodeResume, tryBlock, hout, htext] using catchBlock_text p err
      | ok text =>
        refine Or.inr ⟨result, output, text, rfl, hout, htext, ?_, ?_⟩
        · simp only [tryBlock, hout, htext, hflag]
          by_cases hb : toBoolean flag = true <;> simp [hb]
        · simp only [runCodeResume, tryBlock, hout, htext, hflag]
          by_cases hb : toBoolean flag = true <;> simp [hb, addError, setText]

/-! ## The rendered result of `runCode` -/

/-- C1: when the editor is initialised and the response parses to an object
whose `output` is the string `X` and whose `error` is `true`, the output
region ends with text exactly `X` and carries the class `error`, whatever the
display showed before. -/
theorem runCode_renders_backend_error (h : Host) (s : IDE) (e : Editor)
    (fields : List (String × JVal)) (X : String)
    (hed : s.editor = some e)
    (hout : ownProp fields "output" = some (.str X))
    (herr : ownProp fields "error" = some (.bool true)) :
    (runCode h s (.parsed (.obj fields))).state.output.textContent = X ∧
    "error" ∈ (runCode h s (.parsed (.obj fields))).state.output.classList := by
  rw [runCode_of_editor h s e _ hed]
  simp [runCodeResume, tryBlock, getProp, hout, herr, toTextContent, toStr, toBoolean,
    addError, setText, mem_classAdd]

theorem runCode_renders_backend_error_witness :
    demoIDE.editor = some ⟨"print(input())", "python"⟩ ∧
    (runCode demoHost demoIDE
      (.parsed (.obj [("output", .str "boom"), ("error", .bool true)]))).state.output.textContent
      = "boom" ∧
    "error" ∈ (runCode demoHost demoIDE
      (.parsed (.obj [("output", .str "boom"), ("error", .bool true)]))).state.output.classList :=
  ⟨rfl, runCode_renders_backend_error demoHost demoIDE ⟨"print(input())", "python"⟩
    [("output", .str "boom"), ("error", .bool true)] "boom" rfl rfl rfl⟩

/-- C2, the claim as stated fails: two runs overlap on a page with the editor
initialised; the later one resolves with `error: true`, then the earlier one
resolves with an object whose `output` is `5\n` and which has no `error`
field.  The output region ends with the text `5\n` and still carries the
class `error`. -/
theorem overlapping_runs_leave_success_flagged :
    demoIDE.editor ≠ none ∧
    overlappingRuns demoHost demoIDE
        (.parsed (.obj [("output", .str "5\n")]))
        (.parsed (.obj [("output", .str "boom"), ("error", .bool true)]))
      = some { demoIDE with output := ⟨"5\n", ["panel", "error"]⟩ } := by
  decide

/-- C2, amended: when the editor is initialised and the response parses to
an object whose `output` is the string `Y` and which has no `error` field,
then from whatever state `p` the page is in when `runCode` resumes, the output
region ends with text exactly `Y` and with the class list it had in `p`: the
class `error` is there only if a handler put it there while the request was
in flight.  A run with no handler in between, from any prior display, one
flagged by an earlier run included, ends with text `Y` and without the class
`error`. -/
theorem runCode_renders_success (h : Host) (s p : IDE) (e : Editor)
    (fields : List (String × JVal)) (Y : String)
    (hed : s.editor = some e)
    (hout : ownProp fields "output" = some (.str Y))
    (herr : ownProp fields "error" = none) :
    (runCodeResume h p (.parsed (.obj fields))).output.textContent = Y ∧
    (runCodeResume h p (.parsed (.obj fields))).output.classList = p.output.classList ∧
    (runCode h s (.parsed (.obj fields))).state.output.textContent = Y ∧
    "error" ∉ (runCode h s (.parsed (.obj fields))).state.output.classList := by
  rw [runCode_of_editor h s e _ hed]
  simp [runCodeResume, tryBlock, getProp, hout, herr, toTextContent, toStr, toBoolean,
    removeError, setText, classRemove]

theorem runCode_renders_success_witness :
    demoIDE.editor = some ⟨"print(input())", "python"⟩ ∧
    "error" ∈ demoIDE.output.classList ∧
    (runCodeResume demoHost demoIDE
      (.parsed (.obj [("output", .str "5\n")]))).output.textContent = "5\n" ∧
    (runCodeResume demoHost demoIDE
      (.parsed (.obj [("output", .str "5\n")]))).output.classList = demoIDE.output.classList ∧
    (runCode demoHost demoIDE (.parsed (.obj [("output", .str "5\n")]))).state.output.textContent
      = "5\n" ∧
    "error" ∉ (runCode demoHost demoIDE
      (.parsed (.obj [("output", .str "5\n")]))).state.output.classList :=
  ⟨rfl, by decide, runCode_renders_success demoHost demoIDE demoIDE ⟨"print(input())", "python"⟩
    [("output", .str "5\n")] "5\n" rfl rfl rfl⟩

/-- C3: when the transport fails, by `fetch` rejecting or by the body not
parsing, with an error whose message is `m`, the output region ends with the
text `Error: ` followed by `m`, so it contains `m`, and carries the class
`error`. -/
theorem runCode_renders_transport_failure (h : Host) (s : IDE) (e : Editor)
    (error : JsError) (outcome : FetchOutcome)
    (hed : s.editor = some e)
    (hfail : outcome = .rejected error ∨ outcome = .unparseable error) :
    (runCode h s outcome).state.output.textContent = "Error: " ++ error.message ∧
    error.message.data <:+: (runCode h s outcome).state.output.textContent.data ∧
    "error" ∈ (runCode h s outcome).state.output.classList := by
  rw [runCode_of_editor h s e _ hed]
  have hres : runCodeResume h (removeError (setText s "Executing...")) outcome =
      catchBlock (removeError (setText s "Executing...")) error := by
    rcases hfail with rfl | rfl <;> simp [runCodeResume, tryBlock]
  simp only [hres]
  obtain ⟨ht, hc⟩ := catchBlock_text (removeError (setText s "Executing...")) error
  refine ⟨ht, ?_, hc⟩
  rw [ht, String.data_append]
  exact (List.suffix_append _ _).isInfix

theorem runCode_renders_transport_failure_witness :
    demoIDE.editor = some ⟨"print(input())", "python"⟩ ∧
    (runCode demoHost demoIDE (.rejected ⟨"TypeError", "Failed to fetch"⟩)).state.output.textContent
      = "Error: " ++ "Failed to fetch" ∧
    "Failed to fetch".data <:+: (runCode demoHost demoIDE
      (.rejected ⟨"TypeError", "Failed to fetch"⟩)).state.output.textContent.data ∧
    "error" ∈ (runCode demoHost demoIDE
      (.rejected ⟨"TypeError", "Failed to fetch"⟩)).state.output.classList :=
  ⟨rfl, runCode_renders_transport_failure demoHost demoIDE ⟨"print(input())", "python"⟩
    ⟨"TypeError", "Failed to fetch"⟩ (.rejected ⟨"TypeError", "Failed to fetch"⟩) rfl (Or.inl rfl)⟩

/-- C4, the claim as stated fails: with the editor initialised, a response
whose `output` is the text `Executing...` leaves the output region showing
`Executing...` without the class `error`, which is the in-progress display. -/
theorem runCode_may_end_showing_executing :
    demoIDE.editor ≠ none ∧
    (runCode demoHost demoIDE
      (.parsed (.obj [("output", .str "Executing...")]))).state.output.textContent
      = "Executing..." ∧
    "error" ∉ (runCode demoHost demoIDE
      (.parsed (.obj [("output", .str "Executing...")]))).state.output.classList := by
  decide

/-- C4, amended: with the editor initialised, `runCode` ends in exactly one
of two rendered states.  Either an error was thrown inside the `try` block,
and the output region shows `Error: ` followed by the message of that error,
with the class `error`; or nothing was thrown, the response parsed, and the
region shows the text rendering of its `output` field.  The region reads
`Executing...` after resolution exactly when the response parsed and its
`output` field itself renders as `Executing...`. -/
theorem runCode_final_text (h : Host) (s : IDE) (e : Editor) (outcome : FetchOutcome)
    (hed : s.editor = some e) :
    ∃ pending request, runCodeBegin s = some (pending, request) ∧
      ((∃ error, (tryBlock h pending outcome).2 = some error ∧
          (runCode h s outcome).state.output.textContent = "Error: " ++ error.message ∧
          "error" ∈ (runCode h s outcome).state.output.classList) ∨
       (∃ result output, (tryBlock h pending outcome).2 = none ∧
          outcome = .parsed result ∧ getProp h result "output" = .ok output ∧
          toTextContent h output = .ok (runCode h s outcome).state.output.textContent)) ∧
      ((runCode h s outcome).state.output.textContent = "Executing..." ↔
        ∃ result output, outcome = .parsed result ∧ getProp h result "output" = .ok output ∧
          toTextContent h output = .ok "Executing...") := by
  refine ⟨removeError (setText s "Executing..."),
    { url := "/api/execute"
      method := "POST"
      headers := [("Content-Type", "application/json")]
      body := stringifyRecord
        [("language", s.languageSelector), ("code", e.value), ("input_data", s.inputData)] },
    ?_, ?_⟩
  · simp only [runCodeBegin, hed]
  rw [runCode_of_editor h s e _ hed]
  simp only
  rcases runCodeResume_cases h (removeError (setText s "Executing...")) outcome with
    ⟨error, hthrown, ht, hc⟩ | ⟨result, output, text, rfl, hout, htext, hnone, ht⟩
  · refine ⟨Or.inl ⟨error, hthrown, ht, hc⟩, ?_, ?_⟩
    · intro hx
      exact absurd (ht ▸ hx) (error_text_ne_executing error.message)
    · rintro ⟨result, output, rfl, hout, htext⟩
      simp [tryBlock, hout, htext] at hthrown
      obtain ⟨flag, hflag⟩ := getProp_error_of_output h result output hout
      rw [hflag] at hthrown
      simp at hthrown
      split at hthrown <;> simp at hthrown
  · refine ⟨Or.inr ⟨result, output, hnone, rfl, hout, ?_⟩, ?_, ?_⟩
    · rw [ht]; exact htext
    · intro hx
      exact ⟨result, output, rfl, hout, by rw [htext, ← ht, hx]⟩
    · rintro ⟨result', output', hr, hout', htext'⟩
      cases hr
      rw [hout] at hout'
      cases hout'
      rw [htext] at htext'
      cases htext'
      exact ht

theorem runCode_final_text_witness :
    demoIDE.editor = some ⟨"print(input())", "python"⟩ ∧
    ∃ pending request, runCodeBegin demoIDE = some (pending, request) ∧
      ((∃ error, (tryBlock demoHost pending (.parsed .null)).2 = some error ∧
          (runCode demoHost demoIDE (.parsed .null)).state.output.textContent
            = "Error: " ++ error.message ∧
          "error" ∈ (runCode demoHost demoIDE (.parsed .null)).state.output.classList) ∨
       (∃ result output, (tryBlock demoHost pending (.parsed .null)).2 = none ∧
          FetchOutcome.parsed .null = .parsed result ∧
          getProp demoHost result "output" = .ok output ∧
          toTextContent demoHost output
            = .ok (runCode demoHost demoIDE (.parsed .null)).state.output.textContent)) ∧
      ((runCode demoHost demoIDE (.parsed .null)).state.output.textContent = "Executing..." ↔
        ∃ result output, FetchOutcome.parsed .null = .parsed result ∧
          getProp demoHost result "output" = .ok output ∧
          toTextContent demoHost output = .ok "Executing...") :=
  ⟨rfl, runCode_final_text demoHost demoIDE ⟨"print(input())", "python"⟩ (.parsed .null) rfl⟩

/-! ## The request, and the display while it is in flight -/

/-- C7: one call of `runCode` with the editor initialised issues exactly one
request: a POST to `/api/execute` whose body is a JSON text that reads back
as the object with exactly the three members `language` (the selector
value), `code` (the editor content) and `input_data` (the value of the input
field), in that order, for every content of the three, the empty one
included. -/
theorem runCode_sends_one_post (h : Host) (s : IDE) (e : Editor) (outcome : FetchOutcome)
    (hed : s.editor = some e) :
    ∃ body,
      (runCode h s outcome).sent =
        [{ url := "/api/execute"
           method := "POST"
           headers := [("Content-Type", "application/json")]
           body := body }] ∧
      readRecord body =
        some [("language", s.languageSelector), ("code", e.value), ("input_data", s.inputData)] := by
  refine ⟨stringifyRecord
    [("language", s.languageSelector), ("code", e.value), ("input_data", s.inputData)], ?_, ?_⟩
  · rw [runCode_of_editor h s e _ hed]
  · exact readRecord_stringifyRecord _

theorem runCode_sends_one_post_witness :
    (⟨some ⟨"", "python"⟩, "python", ⟨"", []⟩, ""⟩ : IDE).editor = some ⟨"", "python"⟩ ∧
    ∃ body,
      (runCode demoHost ⟨some ⟨"", "python"⟩, "python", ⟨"", []⟩, ""⟩ (.parsed .null)).sent =
        [{ url := "/api/execute"
           method := "POST"
           headers := [("Content-Type", "application/json")]
           body := body }] ∧
      readRecord body = some [("language", "python"), ("code", ""), ("input_data", "")] :=
  ⟨rfl, runCode_sends_one_post demoHost ⟨some ⟨"", "python"⟩, "python", ⟨"", []⟩, ""⟩
    ⟨"", "python"⟩ (.parsed .null) rfl⟩

/-- C8: when `runCode` is called with the editor initialised, the state in
which `fetch` is called shows `Executing...` without the class `error`,
whatever the display showed before; the run sends the request from that
state and continues from it when the transport settles. -/
theorem runCode_shows_pending_before_request (h : Host) (s : IDE) (e : Editor)
    (outcome : FetchOutcome) (hed : s.editor = some e) :
    ∃ pending request, runCodeBegin s = some (pending, request) ∧
      pending.output.textContent = "Executing..." ∧
      "error" ∉ pending.output.classList ∧
      (runCode h s outcome).sent = [request] ∧
      (runCode h s outcome).state = runCodeResume h pending outcome := by
  refine ⟨removeError (setText s "Executing..."),
    { url := "/api/execute"
      method := "POST"
      headers := [("Content-Type", "application/json")]
      body := stringifyRecord
        [("language", s.languageSelector), ("code", e.value), ("input_data", s.inputData)] },
    ?_, ?_, ?_, ?_, ?_⟩
  · simp only [runCodeBegin, hed]
  · simp [removeError, setText]
  · simp [removeError, setText, classRemove]
  · rw [runCode_of_editor h s e _ hed]
  · rw [runCode_of_editor h s e _ hed]

theorem runCode_shows_pending_before_request_witness :
    demoIDE.editor = some ⟨"print(input())", "python"⟩ ∧
    "error" ∈ demoIDE.output.classList ∧
    ∃ pending request, runCodeBegin demoIDE = some (pending, request) ∧
      pending.output.textContent = "Executing..." ∧
      "error" ∉ pending.output.classList ∧
      (runCode demoHost demoIDE (.rejected ⟨"TypeError", "Failed to fetch"⟩)).sent = [request] ∧
      (runCode demoHost demoIDE (.rejected ⟨"TypeError", "Failed to fetch"⟩)).state
        = runCodeResume demoHost pending (.rejected ⟨"TypeError", "Failed to fetch"⟩) :=
  ⟨rfl, by decide, runCode_shows_pending_before_request demoHost demoIDE
    ⟨"print(input())", "python"⟩ (.rejected ⟨"TypeError", "Failed to fetch"⟩) rfl⟩

/-- C10: while the editor widget has not been created (`editor` is `null`),
`runCode` sends no request, leaves the whole state as it was, the text and
the classes of the output region and the input field included, and raises
nothing. -/
theorem runCode_without_editor_is_noop (h : Host) (s : IDE) (outcome : FetchOutcome)
    (hed : s.editor = none) :
    (runCode h s outcome).sent = [] ∧
    (runCode h s outcome).state = s ∧
    (runCode h s outcome).raised = none := by
  simp [runCode, runCodeBegin, hed]

theorem runCode_without_editor_is_noop_witness :
    demoUnloaded.editor = none ∧
    (runCode demoHost demoUnloaded (.parsed (.str "x"))).sent = [] ∧
    (runCode demoHost demoUnloaded (.parsed (.str "x"))).state = demoUnloaded ∧
    (runCode demoHost demoUnloaded (.parsed (.str "x"))).raised = none :=
  ⟨rfl, runCode_without_editor_is_noop demoHost demoUnloaded (.parsed (.str "x")) rfl⟩

/-! ## Failures -/

/-- C9: with the editor initialised, `runCode` raises nothing to its caller
for any outcome of the transport call.  A rejection of `fetch`, a body that
does not parse, a body that parses to `null`, and any other error thrown
inside the `try` block end with the text `Error: ` followed by the message of
the error and with the class `error`; a parsed object without an `output`
field ends with the empty text. -/
theorem runCode_recovers_every_failure (h : Host) (s : IDE) (e : Editor)
    (outcome : FetchOutcome) (hed : s.editor = some e) :
    (runCode h s outcome).raised = none ∧
    (∀ error, outcome = .rejected error ∨ outcome = .unparseable error →
      (runCode h s outcome).state.output.textContent = "Error: " ++ error.message ∧
      "error" ∈ (runCode h s outcome).state.output.classList) ∧
    (outcome = .parsed .null →
      (runCode h s outcome).state.output.textContent = "Error: " ++ h.nullReadMessage "output" ∧
      "error" ∈ (runCode h s outcome).state.output.classList) ∧
    (∀ fields, outcome = .parsed (.obj fields) → ownProp fields "output" = none →
      (runCode h s outcome).state.output.textContent = "") ∧
    (∀ pending request error, runCodeBegin s = some (pending, request) →
      (tryBlock h pending outcome).2 = some error →
      (runCode h s outcome).state.output.textContent = "Error: " ++ error.message ∧
      "error" ∈ (runCode h s outcome).state.output.classList) := by
  have hthrown : ∀ error,
      (tryBlock h (removeError (setText s "Executing...")) outcome).2 = some error →
      (runCode h s outcome).state.output.textContent = "Error: " ++ error.message ∧
      "error" ∈ (runCode h s outcome).state.output.classList := by
    intro error hthrown
    rw [runCode_of_editor h s e _ hed]
    simp only
    rcases runCodeResume_cases h (removeError (setText s "Executing...")) outcome with
      ⟨error', hthrown', ht, hc⟩ | ⟨_, _, _, _, _, _, hnone, _⟩
    · rw [hthrown] at hthrown'
      cases hthrown'
      exact ⟨ht, hc⟩
    · rw [hthrown] at hnone
      cases hnone
  refine ⟨?_, ?_, ?_, ?_, ?_⟩
  · rw [runCode_of_editor h s e _ hed]
  · rintro error (rfl | rfl) <;> exact hthrown error rfl
  · rintro rfl
    exact hthrown ⟨"TypeError", h.nullReadMessage "output"⟩ rfl
  · rintro fields rfl hnone
    rw [runCode_of_editor h s e _ hed]
    simp only [runCodeResume, tryBlock, getProp, hnone, toTextContent]
    by_cases hb : toBoolean (ownProp fields "error") = true <;> simp [hb, addError, setText]
  · intro pending request error hbegin
    simp only [runCodeBegin, hed, Option.some.injEq, Prod.mk.injEq] at hbegin
    obtain ⟨rfl, _⟩ := hbegin
    exact hthrown error

theorem runCode_recovers_every_failure_witness :
    demoIDE.editor = some ⟨"print(input())", "python"⟩ ∧
    (runCode demoHost demoIDE (.parsed .null)).raised = none ∧
    (runCode demoHost demoIDE (.parsed .null)).state.output.textContent
      = "Error: " ++ demoHost.nullReadMessage "output" ∧
    "error" ∈ (runCode demoHost demoIDE (.parsed .null)).state.output.classList :=
  have hall := runCode_recovers_every_failure demoHost demoIDE ⟨"print(input())", "python"⟩
    (.parsed .null) rfl
  ⟨rfl, hall.1, hall.2.2.1 rfl⟩

/-! ## `clearAll` and `handleLanguageChange` -/

theorem clearAll_of_editor (h : Host) (s : IDE) (e : Editor) (hed : s.editor = some e) :
    (clearAll h s).state.output.textContent = "" ∧
    "error" ∉ (clearAll h s).state.output.classList ∧
    (clearAll h s).state.editor = some { e with value := "" } ∧
    (clearAll h s).state.inputData = "" ∧
    (clearAll h s).raised = none := by
  simp [clearAll, removeError, setText, hed, classRemove]

/-- C5, at a state the claim covers: before the editor widget has been
created, `clearAll` empties the output region and removes its class `error`,
then throws a TypeError at `this.editor.setValue`, so the input field keeps
its value `5`. -/
theorem clearAll_unloaded_keeps_input :
    demoUnloaded.editor = none ∧
    demoUnloaded.inputData = "5" ∧
    (clearAll demoHost demoUnloaded).state.output.textContent = "" ∧
    "error" ∉ (clearAll demoHost demoUnloaded).state.output.classList ∧
    (clearAll demoHost demoUnloaded).state.inputData = "5" ∧
    (clearAll demoHost demoUnloaded).raised
      = some ⟨"TypeError", demoHost.nullReadMessage "setValue"⟩ := by
  decide

theorem handleLanguageChange_frame (h : Host) (s : IDE) :
    (handleLanguageChange h s).sent = [] ∧
    (handleLanguageChange h s).state.output = s.output ∧
    (handleLanguageChange h s).state.inputData = s.inputData ∧
    (handleLanguageChange h s).state.languageSelector = s.languageSelector ∧
    ∀ e, s.editor = some e →
      ∃ e1, (handleLanguageChange h s).state.editor = some e1 ∧
        e1.language = h.languageMode s.languageSelector := by
  cases hed : s.editor with
  | none => by_cases hm : h.monacoLoaded = true <;> simp [handleLanguageChange, hed, hm]
  | some e =>
    cases hp : placeholders s.languageSelector with
    | own text => simp [handleLanguageChange, hed, hp]
    | absent => simp [handleLanguageChange, hed, hp]
    | inherited =>
      cases hv : h.setValueForeign s.languageSelector e.value <;>
        simp [handleLanguageChange, hed, hp, hv]

/-- C6, the claim as stated fails.  With the editor present and the selector
on `klingon`, a language the widget does not know, the language mode of the
editor becomes `plaintext`, not `klingon`.  And with the selector on
`javascript` before the editor widget exists, the handler raises an error
and sets nothing. -/
theorem handleLanguageChange_mode_differs :
    ({ demoIDE with languageSelector := "klingon" } : IDE).editor ≠ none ∧
    (handleLanguageChange demoHost { demoIDE with languageSelector := "klingon" }).state.editor
      = some ⟨"", "plaintext"⟩ ∧
    (handleLanguageChange demoHost { demoIDE with languageSelector := "klingon" }).state.editor
      ≠ some ⟨"", "klingon"⟩ ∧
    (handleLanguageChange demoHost { demoUnloaded with languageSelector := "javascript" }).state.editor
      = none ∧
    (handleLanguageChange demoHost { demoUnloaded with languageSelector := "javascript" }).raised
      = some ⟨"ReferenceError", "monaco is not defined"⟩ := by
  decide

/-- C6, amended: with the editor widget present and the language selector on
a value `L` that is not a property name inherited from `Object.prototype`,
`handleLanguageChange` hands `L` to `setModelLanguage`, so that the language
mode of the editor becomes the mode the widget gives for `L`, and replaces
the editor content with the placeholder text registered for `L` (the empty
text when the table has no entry under `L`); it sends no request, raises
nothing, and leaves the output region, the input field and the selector as
they were. -/
theorem handleLanguageChange_sets_mode_and_placeholder (h : Host) (s : IDE) (e : Editor)
    (text : String) (hed : s.editor = some e)
    (hreg : placeholders s.languageSelector = .own text ∨
      (placeholders s.languageSelector = .absent ∧ text = "")) :
    (handleLanguageChange h s).state.editor
      = some ⟨text, h.languageMode s.languageSelector⟩ ∧
    (handleLanguageChange h s).sent = [] ∧
    (handleLanguageChange h s).raised = none ∧
    (handleLanguageChange h s).state.output = s.output ∧
    (handleLanguageChange h s).state.inputData = s.inputData ∧
    (handleLanguageChange h s).state.languageSelector = s.languageSelector := by
  rcases hreg with hown | ⟨habsent, rfl⟩
  · simp only [handleLanguageChange, hed, hown]
    by_cases ht : text = "" <;> simp [ht]
  · simp [handleLanguageChange, hed, habsent]

theorem handleLanguageChange_sets_mode_and_placeholder_witness :
    ({ demoIDE with languageSelector := "javascript" } : IDE).editor
      = some ⟨"print(input())", "python"⟩ ∧
    placeholders "javascript" = .own "// To read from stdin in Node.js:\n// process.stdin.on(\"data\", data => console.log(\x60You entered: $\x7bdata\x7d\x60));\nconsole.log(\"Hello, world!\");" ∧
    demoHost.languageMode "javascript" = "javascript" ∧
    (handleLanguageChange demoHost { demoIDE with languageSelector := "javascript" }).state.editor
      = some ⟨"// To read from stdin in Node.js:\n// process.stdin.on(\"data\", data => console.log(\x60You entered: $\x7bdata\x7d\x60));\nconsole.log(\"Hello, world!\");", demoHost.languageMode "javascript"⟩ ∧
    (handleLanguageChange demoHost { demoIDE with languageSelector := "javascript" }).sent = [] :=
  have hall := handleLanguageChange_sets_mode_and_placeholder demoHost
    { demoIDE with languageSelector := "javascript" } ⟨"print(input())", "python"⟩
    "// To read from stdin in Node.js:\n// process.stdin.on(\"data\", data => console.log(\x60You entered: $\x7bdata\x7d\x60));\nconsole.log(\"Hello, world!\");"
    rfl (Or.inl (by decide))
  ⟨rfl, by decide, by decide, hall.1, hall.2.1⟩

end SimpleIDE
